import Mathlib

/-!
Verification development for the oty workflow engine (src/oty.py).

The engine reads a YAML workflow (a name, a variable mapping, and an ordered
list of shell steps), substitutes placeholder variables of the form
`\x7b\x7bNAME\x7d\x7d` into each step command, runs the steps in order as child
processes, and persists per-(workflow, target) progress so an interrupted run
can resume.

The definitions below are a shallow embedding of that engine, translated
directly from the source.  Strings are modelled as Lean strings (lists of
characters); the filesystem and the executable search path are oracle
functions supplied as parameters; child-process outcomes are an oracle from
step index to an exit event.
-/

namespace Oty

/-! ### Character-level string machinery

`str.replace`, `str.split()`, and the two regular expressions used by the
validator are modelled on `List Char`.  Recursive scanners take an explicit
fuel argument (always instantiated with the length of the scanned list) so
that every definition is structural and kernel-computable. -/

/-- Model of Python `command.replace(pat, rep)` (all non-overlapping
occurrences, scanned left to right), as used at src/oty.py:263, 340, 356.
The fuel is always called with the length of the scanned list.  The
`pat ≠ []` guard makes the (never occurring) empty pattern a no-op. -/
def replaceAllF (pat rep : List Char) : Nat → List Char → List Char
  | _, [] => []
  | 0, c :: rest => c :: rest
  | f + 1, c :: rest =>
    if pat ≠ [] ∧ pat <+: (c :: rest) then
      rep ++ replaceAllF pat rep f (List.drop (pat.length - 1) rest)
    else
      c :: replaceAllF pat rep f rest

/-- String wrapper for `replaceAllF`. -/
def replaceAll (s : String) (pat rep : List Char) : String :=
  ⟨replaceAllF pat rep s.data.length s.data⟩

/-- The placeholder pattern `\x7b\x7bv\x7d\x7d` built by the f-string
`f'\x7b\x7b\x7b\x7b\x7bvar\x7d\x7d\x7d\x7d\x7d'` at src/oty.py:263, 340, 356
(no whitespace tolerated around the name). -/
def placeholderL (v : String) : List Char :=
  '\x7b' :: '\x7b' :: (v.data ++ ['\x7d', '\x7d'])

/-- `placeholderL` as a string. -/
def placeholderStr (v : String) : String := ⟨placeholderL v⟩

/-- The substitution loop
`for var, value in variables.items(): command = command.replace(...)`
(src/oty.py:355-356, and identically at 262-263 and 339-340).  The variable
set is an insertion-ordered association list, mirroring a Python dict; values
are already strings (the engine applies `str(value)` at each use). -/
def substituteVariables (varMap : List (String × String)) (command : String) : String :=
  varMap.foldl (fun cmd p => replaceAll cmd (placeholderL p.1) p.2.data) command

/-- The leftover-marker test
`any(var in command for var in ['\x7b\x7b', '\x7d\x7d'])` at src/oty.py:360. -/
def containsBraces (s : String) : Bool :=
  decide (['\x7b', '\x7b'] <:+: s.data) || decide (['\x7d', '\x7d'] <:+: s.data)

/-- A `\w` word character of the placeholder regex (ASCII reading). -/
def isWordChar (c : Char) : Bool := c.isAlphanum || c == '_'

/-- One attempted match of the regex `\x7b\x7b(\w+)\x7d\x7d` at the head of
the list: two opening braces, a nonempty maximal word-character run, two
closing braces.  Returns the captured name and the remainder after the
match. -/
def matchPlaceholderAt : List Char → Option (String × List Char)
  | '\x7b' :: '\x7b' :: rest =>
    (match rest.dropWhile isWordChar with
     | '\x7d' :: '\x7d' :: rest2 =>
       if (rest.takeWhile isWordChar).isEmpty then none
       else some (⟨rest.takeWhile isWordChar⟩, rest2)
     | _ => none)
  | _ => none

/-- Fueled scan of `re.findall(..., command)` for the placeholder regex
(src/oty.py:253): non-overlapping matches, scanning left to right. -/
def scanPlaceholdersF : Nat → List Char → List String
  | _, [] => []
  | 0, _ :: _ => []
  | f + 1, c :: rest =>
    match matchPlaceholderAt (c :: rest) with
    | some (name, rest2) => name :: scanPlaceholdersF f rest2
    | none => scanPlaceholdersF f rest

/-- All placeholder names occurring in a command (src/oty.py:253). -/
def scanPlaceholders (command : String) : List String :=
  scanPlaceholdersF command.data.length command.data

/-- Whitespace split of Python `str.split()` (runs of whitespace are
delimiters, empty tokens dropped); accumulator holds the current token
reversed. -/
def splitWsAux : List Char → List Char → List (List Char)
  | [], acc => if acc.isEmpty then [] else [acc.reverse]
  | c :: rest, acc =>
    if c.isWhitespace then
      if acc.isEmpty then splitWsAux rest [] else acc.reverse :: splitWsAux rest []
    else
      splitWsAux rest (c :: acc)

/-- The whitespace-delimited tokens of a command. -/
def commandTokens (s : String) : List String :=
  (splitWsAux s.data []).map (fun l => ⟨l⟩)

/-- Whether a token starts with `/`.  Together with `commandTokens` this
models the absolute-path regex `(?:^|\s)(/[^\s]+)` of src/oty.py:265: the
`/`-initial whitespace-delimited tokens, in order. -/
def isAbsPath (t : String) : Bool :=
  match t.data with
  | '/' :: _ => true
  | _ => false

/-! ### Data model

Workflow documents follow `WORKFLOW_SCHEMA` (src/oty.py:44-74).  A step's
schema also declares an (inert, never enforced) `timeout` field, omitted
here.  Saved states are the JSON objects written by `save_state`
(src/oty.py:207-215); the `timestamp` field is never read back and is
omitted. -/

/-- One workflow step (schema at src/oty.py:62-71): `continue_on_error`
defaults to false (src/oty.py:407). -/
structure Step where
  name : String
  command : String
  continueOnError : Bool
deriving DecidableEq

/-- A parsed workflow document.  `variables` preserves document order, like a
Python dict; scalar values are coerced to strings at the point of use. -/
structure Workflow where
  name : String
  vars : List (String × String)
  steps : List Step
deriving DecidableEq

/-- A persisted execution state (src/oty.py:208-215, minus the timestamp,
which no reader consults). -/
structure SavedState where
  workflowName : String
  templatePath : String
  target : String
  completedSteps : List Nat
  vars : List (String × String)
deriving DecidableEq

/-- Python dict assignment `d[key] = val` on an insertion-ordered association
list: an existing key keeps its position and gets the new value, a fresh key
is appended. -/
def setVar : List (String × String) → String → String → List (String × String)
  | [], key, val => [(key, val)]
  | (k, v) :: rest, key, val =>
    if k = key then (k, val) :: rest else (k, v) :: setVar rest key val

/-- Python dict lookup (first, and only, binding of the key). -/
def lookupVar : List (String × String) → String → Option String
  | [], _ => none
  | (k, v) :: rest, key => if k = key then some v else lookupVar rest key

/-! ### State Store key (src/oty.py:187-193) -/

/-- The `unique_string = f"..."` of `_generate_state_id` (src/oty.py:188):
the workflow name and the target joined with an underscore. -/
def uniqueString (workflowName target : String) : String :=
  workflowName ++ "_" ++ target

/-- `_generate_state_id` (src/oty.py:187-189).  The 12-hex-digit truncated
MD5 is an arbitrary deterministic function of `uniqueString`, taken as a
parameter. -/
def generateStateId (md5hex12 : String → String) (workflowName target : String) : String :=
  md5hex12 (uniqueString workflowName target)

/-- The state file name `state_<id>.json` inside the states directory
(`_get_state_file_path`, src/oty.py:191-193). -/
def stateFileName (md5hex12 : String → String) (workflowName target : String) : String :=
  "state_" ++ generateStateId md5hex12 workflowName target ++ ".json"

/-! ### Run setup: resume handling and variable initialization
(src/oty.py:278-300) -/

/-- The local bindings produced by lines 280-300 of `execute_workflow`. -/
structure RunSetup where
  resumeEffective : Bool
  completedSteps : List Nat
  vars : List (String × String)
deriving DecidableEq

/-- Lines 281-300 of `execute_workflow`: `completed_steps = []`; on
`--resume`, a loaded state whose `template_path` matches restores
`completed_steps` and binds `variables` from the state (lines 289-290),
otherwise resume is switched off (line 294).  Lines 299-300 then rebind
`variables` unconditionally to the document variables plus the injected
`TARGET` entry, discarding any snapshot loaded at line 290 (that loaded
value, `loaded.2.2`, is dead). -/
def runSetup (wf : Workflow) (templatePath target : String) (resume : Bool)
    (st : Option SavedState) : RunSetup :=
  let loaded : Bool × List Nat × List (String × String) :=
    if resume then
      match st with
      | some s =>
        if s.templatePath = templatePath then (true, s.completedSteps, s.vars)
        else (false, [], [])
      | none => (false, [], [])
    else (false, [], [])
  ⟨loaded.1, loaded.2.1, setVar wf.vars "TARGET" target⟩

/-! ### Pre-flight validation (`_validate_variables_and_commands`,
src/oty.py:244-276) -/

/-- Oracles for the two filesystem probes of the validator:
`os.path.exists(path)` and `shutil.which(cmd) is not None`. -/
structure ValEnv where
  pathExists : String → Bool
  whichOk : String → Bool

/-- The three accumulators of `_validate_variables_and_commands`:
`undefined_vars` (a set, modelled as a duplicate-free insertion list),
`invalid_paths` and `missing_commands` (lists, order of discovery,
duplicates allowed). -/
structure ValAcc where
  undefinedVars : List String
  invalidPaths : List String
  missingCommands : List String
deriving DecidableEq

/-- `set.add`: insert if not present. -/
def addToSet (u : List String) (v : String) : List String :=
  if v ∈ u then u else u ++ [v]

/-- One iteration of the `for step in workflow.get('steps', [])` loop of
`_validate_variables_and_commands` (src/oty.py:249-274):

* collect the step's placeholder names not bound in `varMap` into the
  (shared, never reset) `undefined_vars` set;
* `if undefined_vars: continue` — the test is on the whole accumulated set,
  so one offending step suppresses the scan of every later step;
* otherwise substitute and scan for `/`-initial tokens that do not exist,
  and resolve the first token as the executable.

On an all-whitespace substituted command the source raises `IndexError` at
`test_command.split()[0]`; that point is modelled as contributing nothing. -/
def validateStepFold (varMap : List (String × String)) (env : ValEnv)
    (acc : ValAcc) (step : Step) : ValAcc :=
  let undef := (scanPlaceholders step.command).foldl
    (fun u v => if lookupVar varMap v = none then addToSet u v else u)
    acc.undefinedVars
  if undef.isEmpty then
    let test := substituteVariables varMap step.command
    let toks := commandTokens test
    let invalid := acc.invalidPaths ++
      (toks.filter (fun t => isAbsPath t)).filter (fun p => env.pathExists p = false)
    match toks with
    | [] => ⟨undef, invalid, acc.missingCommands⟩
    | exe :: _ =>
      if isAbsPath exe then ⟨undef, invalid, acc.missingCommands⟩
      else if env.whichOk exe then ⟨undef, invalid, acc.missingCommands⟩
      else ⟨undef, invalid, acc.missingCommands ++ [exe]⟩
  else ⟨undef, acc.invalidPaths, acc.missingCommands⟩

/-- The full validator loop over a list of steps. -/
def validateSteps (varMap : List (String × String)) (env : ValEnv) :
    List Step → ValAcc → ValAcc
  | [], acc => acc
  | s :: rest, acc => validateSteps varMap env rest (validateStepFold varMap env acc s)

/-- `_validate_variables_and_commands` (src/oty.py:244-276): the boolean is
`bool(undefined_vars or invalid_paths or missing_commands)`. -/
def validateVariablesAndCommands (wf : Workflow) (varMap : List (String × String))
    (env : ValEnv) : Bool × ValAcc :=
  let acc := validateSteps varMap env wf.steps ⟨[], [], []⟩
  (!acc.undefinedVars.isEmpty || !acc.invalidPaths.isEmpty || !acc.missingCommands.isEmpty,
   acc)

/-! ### The step execution loop (src/oty.py:344-421) -/

/-- What the child process of a step does, as observed by the engine:
either it exits with a return code (`0` success, `-15` the SIGTERM produced
by the operator's Ctrl+D skip, anything else a failure, src/oty.py:400-408),
or the (dead, but present) `subprocess.TimeoutExpired` handler fires
(src/oty.py:410-411). -/
inductive RunEvent where
  | exited (returncode : Int)
  | timedOut
deriving DecidableEq

/-- Observable outcome of the `for idx, step in enumerate(...)` loop:
the final `completed_steps` list, the 1-based indices of steps for which a
child process was launched (`subprocess.Popen`, src/oty.py:363), the number
of `save_state` calls (src/oty.py:421), and whether the loop was aborted by
an uncaught exception (src/oty.py:408, 415, 418). -/
structure LoopResult where
  completed : List Nat
  launched : List Nat
  saves : Nat
  aborted : Bool
deriving DecidableEq

/-- The step loop of `execute_workflow` (src/oty.py:344-421), for the steps
remaining from 1-based index `idx` on, with `exec` the child-process oracle:

* a step already in `completed_steps` is skipped when resuming (346-348);
* the resolved command is checked for leftover `\x7b\x7b`/`\x7d\x7d`
  markers; if any remain, no process starts and
  `raise Exception("Variable substitution incomplete")` aborts the loop
  (360, 416-418) — `continue_on_error` is not consulted;
* otherwise the process runs: exit code 0 or -15 advances; any other exit
  re-raises unless `continue_on_error` (405-408, 412-415); the
  `TimeoutExpired` handler only warns (410-411);
* every path that falls through to line 420 appends `idx` to
  `completed_steps` and saves state (420-421) — including a failed step
  with `continue_on_error` and a timed-out step. -/
def runStepsFrom (varMap : List (String × String)) (exec : Nat → RunEvent)
    (resume : Bool) : Nat → List Nat → List Step → LoopResult
  | _, completed, [] => ⟨completed, [], 0, false⟩
  | idx, completed, s :: rest =>
    if resume = true ∧ idx ∈ completed then
      runStepsFrom varMap exec resume (idx + 1) completed rest
    else
      let cmd := substituteVariables varMap s.command
      if containsBraces cmd = true then
        ⟨completed, [], 0, true⟩
      else
        match exec idx with
        | RunEvent.exited rc =>
          if rc = 0 ∨ rc = -15 then
            let r := runStepsFrom varMap exec resume (idx + 1) (completed ++ [idx]) rest
            ⟨r.completed, idx :: r.launched, r.saves + 1, r.aborted⟩
          else if s.continueOnError then
            let r := runStepsFrom varMap exec resume (idx + 1) (completed ++ [idx]) rest
            ⟨r.completed, idx :: r.launched, r.saves + 1, r.aborted⟩
          else
            ⟨completed, [idx], 0, true⟩
        | RunEvent.timedOut =>
          let r := runStepsFrom varMap exec resume (idx + 1) (completed ++ [idx]) rest
          ⟨r.completed, idx :: r.launched, r.saves + 1, r.aborted⟩

/-- The condition under which the loop body reaches line 420 (append and
save) for a launched step: exit code 0, the SIGTERM skip code -15, a
timeout, or any failure with `continue_on_error` set. -/
def advancesOn : RunEvent → Bool → Bool
  | RunEvent.exited rc, coe => decide (rc = 0) || decide (rc = -15) || coe
  | RunEvent.timedOut, _ => true

/-! ### Pre-flight policy and the whole run (src/oty.py:278-342) -/

/-- Lines 302-333 of `execute_workflow`: run the validator; prompt a value
for each undefined variable (310-311); if there are invalid paths or missing
commands, ask for confirmation and abort on decline (323-326); re-run the
validator and abort if undefined variables persist (328-331).  Returns
(aborted, variable map after prompting). -/
def preflight (wf : Workflow) (varMap : List (String × String)) (env : ValEnv)
    (promptValue : String → String) (confirmProceed : Bool) :
    Bool × List (String × String) :=
  let v1 := validateVariablesAndCommands wf varMap env
  if v1.1 then
    let varMap := v1.2.undefinedVars.foldl (fun vs u => setVar vs u (promptValue u)) varMap
    if (!v1.2.invalidPaths.isEmpty || !v1.2.missingCommands.isEmpty) && !confirmProceed then
      (true, varMap)
    else
      let v2 := validateVariablesAndCommands wf varMap env
      if v2.2.undefinedVars.isEmpty then (false, varMap) else (true, varMap)
  else (false, varMap)

/-- Observable outcome of one `execute_workflow` invocation (no interrupt):
the commands printed by the dry-run branch (src/oty.py:336-341), the
launched step indices, the number of state-file writes, the final
`completed_steps`, and whether the run aborted. -/
structure ExecResult where
  displayed : List String
  launched : List Nat
  saves : Nat
  completed : List Nat
  aborted : Bool
deriving DecidableEq

/-- `execute_workflow` (src/oty.py:278-421) without operator interrupts:
resume setup (280-300), pre-flight validation with prompting (302-333), then
either the dry-run display loop, which substitutes and prints every step's
command and returns before any process or state write (335-342), or the step
loop (344-421). -/
def executeWorkflow (wf : Workflow) (templatePath target : String)
    (dryRun resume : Bool) (st : Option SavedState) (env : ValEnv)
    (promptValue : String → String) (confirmProceed : Bool)
    (exec : Nat → RunEvent) : ExecResult :=
  let setup := runSetup wf templatePath target resume st
  let pf := preflight wf setup.vars env promptValue confirmProceed
  if pf.1 then
    ⟨[], [], 0, setup.completedSteps, true⟩
  else if dryRun then
    ⟨wf.steps.map (fun s => substituteVariables pf.2 s.command), [], 0,
     setup.completedSteps, false⟩
  else
    let r := runStepsFrom pf.2 exec setup.resumeEffective 1 setup.completedSteps wf.steps
    ⟨[], r.launched, r.saves, r.completed, r.aborted⟩

/-! ### The KeyboardInterrupt handler (src/oty.py:423-426)

The handler runs `self.save_state(workflow['name'], target, completed_steps,
variables)` and then `sys.exit(0)`.  In Python each of `workflow`,
`completed_steps` and `variables` is a local of `execute_workflow` that is
only bound once the corresponding assignment has run; referencing an unbound
local raises `UnboundLocalError`, which the `except KeyboardInterrupt` clause
does not catch (a sibling `except` clause of the same `try` never handles an
exception raised inside a handler), so the save is skipped and `sys.exit(0)`
is never reached. -/

/-- Which of the handler's free locals are bound at the moment the interrupt
arrives. -/
structure LocalEnv where
  workflow : Option Workflow
  vars : Option (List (String × String))
  completedSteps : List Nat

/-- The handler body (src/oty.py:425-426): evaluate `workflow['name']`, then
`variables`, then checkpoint and exit with code 0.  `none` models an
`UnboundLocalError` escaping the handler: no state is written and no exit
code 0 is produced. -/
def interruptHandler (L : LocalEnv) (templatePath target : String) :
    Option (SavedState × Nat) :=
  match L.workflow with
  | none => none
  | some wf =>
    match L.vars with
    | none => none
    | some vs => some (⟨wf.name, templatePath, target, L.completedSteps, vs⟩, 0)

/-- Bindings while the step loop (or anything from line 302 on) is running:
`workflow` bound at 284, `variables` (re)bound at 299, `completed_steps` the
current list. -/
def envDuringExecution (wf : Workflow) (vs : List (String × String))
    (completed : List Nat) : LocalEnv :=
  ⟨some wf, some vs, completed⟩

/-- Bindings while the template file is still being read or parsed
(src/oty.py:283-284): only `completed_steps = []` (line 281) is bound;
`workflow` and `variables` are not. -/
def envBeforeParse : LocalEnv :=
  ⟨none, none, []⟩

/-! ### Lemmas about the replacement scanner -/

lemma replaceAllF_nil (pat rep : List Char) (f : Nat) : replaceAllF pat rep f [] = [] := by
  cases f <;> rfl

/-- A command that is exactly the pattern is replaced wholesale. -/
lemma replaceAllF_exact (c : Char) (t rep : List Char) (f : Nat) :
    replaceAllF (c :: t) rep (f + 1) (c :: t) = rep := by
  simp only [replaceAllF]
  rw [if_pos ⟨List.cons_ne_nil c t, List.prefix_refl _⟩]
  simp [replaceAllF_nil]

lemma occ_of_head {pat l : List Char} (h : pat <+: l) : pat <:+: l := by
  obtain ⟨t, ht⟩ := h
  exact ⟨[], t, by simpa using ht⟩

lemma occ_cons {pat rest : List Char} (c : Char) (h : pat <:+: rest) :
    pat <:+: c :: rest := by
  obtain ⟨s, t, ht⟩ := h
  exact ⟨c :: s, t, by simp [ht]⟩

/-- A pattern that does not occur in the command leaves it unchanged. -/
lemma replaceAllF_no_occ (pat rep : List Char) :
    ∀ (l : List Char) (f : Nat), ¬ (pat <:+: l) → replaceAllF pat rep f l = l
  | [], f, _ => replaceAllF_nil pat rep f
  | _ :: _, 0, _ => rfl
  | c :: rest, f + 1, h => by
    simp only [replaceAllF]
    rw [if_neg (fun hc => h (occ_of_head hc.2))]
    rw [replaceAllF_no_occ pat rep rest f (fun hin => h (occ_cons c hin))]

/-- Replacing the placeholder of `v` inside the string that is exactly that
placeholder yields the replacement. -/
lemma replaceAll_placeholder_exact (v : String) (rep : List Char) :
    replaceAll (placeholderStr v) (placeholderL v) rep = ⟨rep⟩ :=
  congrArg String.mk
    (replaceAllF_exact '\x7b' ('\x7b' :: (v.data ++ ['\x7d', '\x7d'])) rep _)

lemma replaceAll_no_occ (s : String) (pat rep : List Char)
    (h : ¬ (pat <:+: s.data)) : replaceAll s pat rep = s := by
  show (⟨replaceAllF pat rep s.data.length s.data⟩ : String) = s
  rw [replaceAllF_no_occ pat rep s.data s.data.length h]

/-! ### Lemmas about the variable map -/

lemma lookupVar_setVar (vs : List (String × String)) (key val : String) :
    lookupVar (setVar vs key val) key = some val := by
  induction vs with
  | nil => simp [setVar, lookupVar]
  | cons p rest ih =>
    obtain ⟨k, v⟩ := p
    by_cases hk : k = key
    · simp [setVar, lookupVar, hk]
    · simp [setVar, lookupVar, hk, ih]

/-! ### Lemmas about the validator -/

lemma addToSet_ne_nil (u : List String) (v : String) : addToSet u v ≠ [] := by
  unfold addToSet
  split
  · rename_i hmem
    intro hnil
    rw [hnil] at hmem
    simp at hmem
  · simp

lemma undefFold_ne_nil (varMap : List (String × String)) :
    ∀ (vs : List String) (u : List String), u ≠ [] →
      vs.foldl (fun u v => if lookupVar varMap v = none then addToSet u v else u) u ≠ []
  | [], _, h => h
  | v :: vs, u, h => by
    simp only [List.foldl]
    apply undefFold_ne_nil varMap vs
    split
    · exact addToSet_ne_nil u v
    · exact h

/-- Once the shared `undefined_vars` set is nonempty, a later step's
iteration adds nothing to `invalid_paths` or `missing_commands`. -/
lemma validateStepFold_frozen (varMap : List (String × String)) (env : ValEnv)
    (acc : ValAcc) (s : Step) (h : acc.undefinedVars ≠ []) :
    (validateStepFold varMap env acc s).invalidPaths = acc.invalidPaths ∧
    (validateStepFold varMap env acc s).missingCommands = acc.missingCommands ∧
    (validateStepFold varMap env acc s).undefinedVars ≠ [] := by
  have hu := undefFold_ne_nil varMap (scanPlaceholders s.command) acc.undefinedVars h
  unfold validateStepFold
  rw [if_neg (by simpa using hu)]
  exact ⟨rfl, rfl, hu⟩

lemma validateSteps_frozen (varMap : List (String × String)) (env : ValEnv) :
    ∀ (steps : List Step) (acc : ValAcc), acc.undefinedVars ≠ [] →
      (validateSteps varMap env steps acc).invalidPaths = acc.invalidPaths ∧
      (validateSteps varMap env steps acc).missingCommands = acc.missingCommands
  | [], _, _ => ⟨rfl, rfl⟩
  | s :: rest, acc, h => by
    simp only [validateSteps]
    obtain ⟨h1, h2, h3⟩ := validateStepFold_frozen varMap env acc s h
    obtain ⟨h4, h5⟩ := validateSteps_frozen varMap env rest _ h3
    exact ⟨h4.trans h1, h5.trans h2⟩

lemma validateSteps_append (varMap : List (String × String)) (env : ValEnv) :
    ∀ (l₁ l₂ : List Step) (acc : ValAcc),
      validateSteps varMap env (l₁ ++ l₂) acc
        = validateSteps varMap env l₂ (validateSteps varMap env l₁ acc)
  | [], _, _ => rfl
  | s :: rest, l₂, acc => by
    simp only [List.cons_append, validateSteps]
    exact validateSteps_append varMap env rest l₂ _

/-! ### Lemmas about the step loop -/

/-- If some step's resolved command still contains a brace marker, the
(non-resumed) loop ends aborted, wherever that step sits. -/
lemma runStepsFrom_aborted_of_braces (varMap : List (String × String))
    (exec : Nat → RunEvent) :
    ∀ (steps : List Step) (idx : Nat) (completed : List Nat) (p : Nat)
      (hp : p < steps.length),
      containsBraces (substituteVariables varMap (steps.get ⟨p, hp⟩).command) = true →
      (runStepsFrom varMap exec false idx completed steps).aborted = true
  | [], _, _, p, hp, _ => absurd hp (Nat.not_lt_zero p)
  | s :: rest, idx, completed, p, hp, hb => by
    simp only [runStepsFrom]
    rw [if_neg (by simp)]
    by_cases hcb : containsBraces (substituteVariables varMap s.command) = true
    · rw [if_pos hcb]
    · rw [if_neg hcb]
      cases p with
      | zero => exact absurd hb hcb
      | succ q =>
        have hq : q < rest.length := Nat.lt_of_succ_lt_succ hp
        have hrec := runStepsFrom_aborted_of_braces varMap exec rest (idx + 1)
        cases hev : exec idx with
        | exited rc =>
          dsimp only
          by_cases h0 : rc = 0 ∨ rc = -15
          · rw [if_pos h0]
            simpa using hrec (completed ++ [idx]) q hq hb
          · rw [if_neg h0]
            by_cases hcoe : s.continueOnError = true
            · rw [if_pos hcoe]
              simpa using hrec (completed ++ [idx]) q hq hb
            · rw [if_neg hcoe]
        | timedOut =>
          dsimp only
          simpa using hrec (completed ++ [idx]) q hq hb

/-- In a non-resumed loop, a brace-bearing step at position `p` bounds how
far the loop gets: every launched index, and every index newly recorded as
completed, is below `idx + p`. -/
lemma runStepsFrom_bounded_of_braces (varMap : List (String × String))
    (exec : Nat → RunEvent) :
    ∀ (steps : List Step) (idx : Nat) (completed : List Nat) (p : Nat)
      (hp : p < steps.length),
      containsBraces (substituteVariables varMap (steps.get ⟨p, hp⟩).command) = true →
      (∀ k ∈ (runStepsFrom varMap exec false idx completed steps).launched,
        k < idx + p) ∧
      (∀ k ∈ (runStepsFrom varMap exec false idx completed steps).completed,
        k ∈ completed ∨ k < idx + p)
  | [], _, _, p, hp, _ => absurd hp (Nat.not_lt_zero p)
  | s :: rest, idx, completed, p, hp, hb => by
    simp only [runStepsFrom]
    rw [if_neg (by simp)]
    by_cases hcb : containsBraces (substituteVariables varMap s.command) = true
    · rw [if_pos hcb]
      exact ⟨by simp, fun k hk => Or.inl hk⟩
    · rw [if_neg hcb]
      cases p with
      | zero => exact absurd hb hcb
      | succ q =>
        have hq : q < rest.length := Nat.lt_of_succ_lt_succ hp
        have hrec := runStepsFrom_bounded_of_braces varMap exec rest (idx + 1)
          (completed ++ [idx]) q hq hb
        have hstep : ∀ r : LoopResult,
            (∀ k ∈ r.launched, k < idx + 1 + q) →
            (∀ k ∈ r.completed, k ∈ completed ++ [idx] ∨ k < idx + 1 + q) →
            (∀ k ∈ (⟨r.completed, idx :: r.launched, r.saves + 1, r.aborted⟩ :
                LoopResult).launched, k < idx + (q + 1)) ∧
            (∀ k ∈ (⟨r.completed, idx :: r.launched, r.saves + 1, r.aborted⟩ :
                LoopResult).completed, k ∈ completed ∨ k < idx + (q + 1)) := by
          intro r hl hc
          constructor
          · intro k hk
            rcases List.mem_cons.mp hk with hk | hk
            · omega
            · have := hl k hk; omega
          · intro k hk
            rcases hc k hk with hk | hk
            · rcases List.mem_append.mp hk with hk | hk
              · exact Or.inl hk
              · simp only [List.mem_singleton] at hk
                omega
            · omega
        cases hev : exec idx with
        | exited rc =>
          dsimp only
          by_cases h0 : rc = 0 ∨ rc = -15
          · rw [if_pos h0]
            exact hstep _ hrec.1 hrec.2
          · rw [if_neg h0]
            by_cases hcoe : s.continueOnError = true
            · rw [if_pos hcoe]
              exact hstep _ hrec.1 hrec.2
            · rw [if_neg hcoe]
              refine ⟨?_, fun k hk => Or.inl hk⟩
              intro k hk
              simp only [List.mem_singleton] at hk
              omega
        | timedOut =>
          dsimp only
          exact hstep _ hrec.1 hrec.2

lemma advancesOn_exited (rc : Int) (coe : Bool) :
    advancesOn (RunEvent.exited rc) coe = true ↔ (rc = 0 ∨ rc = -15) ∨ coe = true := by
  simp [advancesOn, or_assoc]

/-! ### Claims -/

/-- C1 (code bug): the spec says a resumed run substitutes remaining steps
with the VariableSet loaded from the saved state.  The code binds
`variables = state['variables']` (src/oty.py:290) and then unconditionally
rebinds `variables = workflow.get('variables', {})` plus the CLI `TARGET`
(299-300), so even a genuinely resumed run (`resumeEffective = true`, the
saved template path matches) substitutes with the freshly recomputed map:
here `X` resolves to the document's `docval`, not the saved `stateval`. -/
theorem resume_discards_loaded_variables :
    (runSetup ⟨"wf", [("X", "docval")], [⟨"s1", "echo \x7b\x7bX\x7d\x7d", false⟩]⟩
        "t.yaml" "tgt" true
        (some ⟨"wf", "t.yaml", "tgt", [1], [("X", "stateval"), ("TARGET", "tgt")]⟩)).resumeEffective
      = true ∧
    (runSetup ⟨"wf", [("X", "docval")], [⟨"s1", "echo \x7b\x7bX\x7d\x7d", false⟩]⟩
        "t.yaml" "tgt" true
        (some ⟨"wf", "t.yaml", "tgt", [1], [("X", "stateval"), ("TARGET", "tgt")]⟩)).vars
      = [("X", "docval"), ("TARGET", "tgt")] ∧
    substituteVariables
        (runSetup ⟨"wf", [("X", "docval")], [⟨"s1", "echo \x7b\x7bX\x7d\x7d", false⟩]⟩
          "t.yaml" "tgt" true
          (some ⟨"wf", "t.yaml", "tgt", [1], [("X", "stateval"), ("TARGET", "tgt")]⟩)).vars
        "echo \x7b\x7bX\x7d\x7d"
      = "echo docval" ∧
    substituteVariables [("X", "stateval"), ("TARGET", "tgt")] "echo \x7b\x7bX\x7d\x7d"
      = "echo stateval" := by
  refine ⟨rfl, by decide, by decide, by decide⟩

/-- C2 counterexample: a step whose process exits with code 1 (a Failed
outcome, neither Completed nor Skipped) but has `continue_on_error = true`
falls through to line 420 and IS appended to `completed_steps`, with a state
save — the claim says a Failed step is never recorded. -/
theorem failed_step_recorded_counterexample :
    ((1 : Int) ≠ 0) ∧ ((1 : Int) ≠ -15) ∧
    (runStepsFrom [] (fun _ => RunEvent.exited 1) false 1 []
      [⟨"s", "echo", true⟩]).completed = [1] ∧
    (runStepsFrom [] (fun _ => RunEvent.exited 1) false 1 []
      [⟨"s", "echo", true⟩]).saves = 1 := by
  refine ⟨by decide, by decide, by decide, by decide⟩

/-- C2 (amended): for an executed (not resume-skipped) step whose resolved
command has no leftover braces, the loop appends the step's index to
`completed_steps` and saves state exactly when the step advances — exit code
0 (Completed), exit code -15 (Skipped), a timeout, or any other exit with
`continue_on_error` set; only a Failed step with `continue_on_error` false
(which aborts the run) is left unrecorded.  The process is launched in every
case. -/
theorem step_recording_characterization (varMap : List (String × String))
    (exec : Nat → RunEvent) (idx : Nat) (completed : List Nat) (s : Step)
    (hnb : containsBraces (substituteVariables varMap s.command) = false) :
    (runStepsFrom varMap exec false idx completed [s]).completed
      = (if advancesOn (exec idx) s.continueOnError then completed ++ [idx] else completed) ∧
    (runStepsFrom varMap exec false idx completed [s]).saves
      = (if advancesOn (exec idx) s.continueOnError then 1 else 0) ∧
    (runStepsFrom varMap exec false idx completed [s]).launched = [idx] ∧
    (runStepsFrom varMap exec false idx completed [s]).aborted
      = !advancesOn (exec idx) s.continueOnError := by
  simp only [runStepsFrom]
  rw [if_neg (by simp), if_neg (by simp [hnb])]
  cases hev : exec idx with
  | exited rc =>
    dsimp only
    by_cases h0 : rc = 0 ∨ rc = -15
    · rw [if_pos h0]
      have ha : advancesOn (RunEvent.exited rc) s.continueOnError = true :=
        (advancesOn_exited rc s.continueOnError).mpr (Or.inl h0)
      rw [ha]
      simp [runStepsFrom]
    · rw [if_neg h0]
      by_cases hcoe : s.continueOnError = true
      · rw [if_pos hcoe]
        have ha : advancesOn (RunEvent.exited rc) s.continueOnError = true :=
          (advancesOn_exited rc s.continueOnError).mpr (Or.inr hcoe)
        rw [ha]
        simp [runStepsFrom]
      · rw [if_neg hcoe]
        simp only [Bool.not_eq_true] at hcoe
        have ha : advancesOn (RunEvent.exited rc) s.continueOnError = false := by
          obtain ⟨h1, h2⟩ := not_or.mp h0
          simp [advancesOn, h1, h2, hcoe]
        rw [ha]
        simp
  | timedOut =>
    dsimp only
    have ha : advancesOn RunEvent.timedOut s.continueOnError = true := rfl
    rw [ha]
    simp [runStepsFrom]

/-- C2 witness: the amended characterization at a concrete input — one step,
`continue_on_error` true, process exits 1: the index is recorded and the
state saved. -/
theorem step_recording_characterization_witness :
    (runStepsFrom [("TARGET", "t")] (fun _ => RunEvent.exited 1) false 3 [1, 2]
      [⟨"s", "date", true⟩]).completed
      = (if advancesOn ((fun _ => RunEvent.exited 1) 3) true then [1, 2] ++ [3] else [1, 2]) ∧
    (runStepsFrom [("TARGET", "t")] (fun _ => RunEvent.exited 1) false 3 [1, 2]
      [⟨"s", "date", true⟩]).saves
      = (if advancesOn ((fun _ => RunEvent.exited 1) 3) true then 1 else 0) ∧
    (runStepsFrom [("TARGET", "t")] (fun _ => RunEvent.exited 1) false 3 [1, 2]
      [⟨"s", "date", true⟩]).launched = [3] ∧
    (runStepsFrom [("TARGET", "t")] (fun _ => RunEvent.exited 1) false 3 [1, 2]
      [⟨"s", "date", true⟩]).aborted
      = !advancesOn ((fun _ => RunEvent.exited 1) 3) true :=
  step_recording_characterization [("TARGET", "t")] (fun _ => RunEvent.exited 1) 3 [1, 2]
    ⟨"s", "date", true⟩ (by decide)

/-- C3 counterexample: with the same command and the same variable bindings,
the substitution result depends on the storage order, and a placeholder
token inside a substituted value IS expanded when its variable is stored
later: with `A = "\x7b\x7bB\x7d\x7d"` stored before `B = "v"`, the command
`\x7b\x7bA\x7d\x7d` resolves all the way to `"v"`; with the reverse order it
stays `"\x7b\x7bB\x7d\x7d"`.  The claim asserted the inner placeholder is
never expanded, regardless of order. -/
theorem substitution_order_dependent_counterexample :
    substituteVariables [("A", "\x7b\x7bB\x7d\x7d"), ("B", "v")] "\x7b\x7bA\x7d\x7d" = "v" ∧
    substituteVariables [("B", "v"), ("A", "\x7b\x7bB\x7d\x7d")] "\x7b\x7bA\x7d\x7d"
      = "\x7b\x7bB\x7d\x7d" ∧
    ("v" : String) ≠ "\x7b\x7bB\x7d\x7d" := by
  refine ⟨by decide, by decide, by decide⟩

/-- C3 (amended): substitution is a sequential fold over the variable list in
storage order, each pass replacing every occurrence of that variable's
placeholder in the current command; consequently a placeholder token
appearing inside a substituted value is itself expanded when its variable is
processed later in the stored order, and left intact when it was processed
earlier.  For any names `A`, `B` and value `u`: storing `A ↦ ⟨placeholder of
B⟩` before `B ↦ u` resolves the command `⟨placeholder of A⟩` to `u`, while
the reverse order leaves the placeholder of `B`. -/
theorem substitution_sequential (A B u : String)
    (h : ¬ (placeholderL B <:+: placeholderL A)) :
    substituteVariables [(A, placeholderStr B), (B, u)] (placeholderStr A) = u ∧
    substituteVariables [(B, u), (A, placeholderStr B)] (placeholderStr A)
      = placeholderStr B := by
  constructor
  · show replaceAll (replaceAll (placeholderStr A) (placeholderL A) (placeholderStr B).data)
        (placeholderL B) u.data = u
    rw [replaceAll_placeholder_exact A (placeholderStr B).data]
    exact replaceAll_placeholder_exact B u.data
  · show replaceAll (replaceAll (placeholderStr A) (placeholderL B) u.data)
        (placeholderL A) (placeholderStr B).data = placeholderStr B
    rw [replaceAll_no_occ (placeholderStr A) (placeholderL B) u.data h]
    exact replaceAll_placeholder_exact A (placeholderStr B).data

/-- C3 witness: the sequential-substitution theorem at the concrete names
`A`, `B` and value `v`. -/
theorem substitution_sequential_witness :
    substituteVariables [("A", placeholderStr "B"), ("B", "v")] (placeholderStr "A") = "v" ∧
    substituteVariables [("B", "v"), ("A", placeholderStr "B")] (placeholderStr "A")
      = placeholderStr "B" :=
  substitution_sequential "A" "B" "v" (by decide)

/-- C4 counterexample: step 2's command `/nope` contains no placeholder at
all and names a non-existent absolute path, yet because step 1 contributed
an undefined variable `X` to the shared `undefined_vars` set, step 2's path
scan is skipped and `invalid_paths` stays empty — the claim says each step
with no undefined variables of its own is still scanned. -/
theorem validation_skips_clean_step_counterexample :
    scanPlaceholders "/nope" = [] ∧
    (validateSteps [("TARGET", "t")] ⟨fun _ => false, fun _ => true⟩
      [⟨"s1", "run \x7b\x7bX\x7d\x7d", false⟩, ⟨"s2", "/nope", false⟩]
      ⟨[], [], []⟩).invalidPaths = [] := by
  refine ⟨by decide, by decide⟩

/-- C4 (amended): the path and executable scans are gated on the whole
accumulated `undefined_vars` set, not per step: once any prefix of the step
list has contributed an undefined variable, appending further steps changes
neither `invalid_paths` nor `missing_commands`, whatever those steps
contain. -/
theorem validation_gated_by_earlier_steps (varMap : List (String × String))
    (env : ValEnv) (steps1 steps2 : List Step)
    (h : (validateSteps varMap env steps1 ⟨[], [], []⟩).undefinedVars ≠ []) :
    (validateSteps varMap env (steps1 ++ steps2) ⟨[], [], []⟩).invalidPaths
      = (validateSteps varMap env steps1 ⟨[], [], []⟩).invalidPaths ∧
    (validateSteps varMap env (steps1 ++ steps2) ⟨[], [], []⟩).missingCommands
      = (validateSteps varMap env steps1 ⟨[], [], []⟩).missingCommands := by
  rw [validateSteps_append]
  exact validateSteps_frozen varMap env steps2 _ h

/-- C4 witness: the gating theorem at the counterexample's workflow — the
step `/nope` appended after the undefined-variable step adds nothing. -/
theorem validation_gated_by_earlier_steps_witness :
    (validateSteps [("TARGET", "t")] ⟨fun _ => false, fun _ => true⟩
      ([⟨"s1", "run \x7b\x7bX\x7d\x7d", false⟩] ++ [⟨"s2", "/nope", false⟩])
      ⟨[], [], []⟩).invalidPaths
      = (validateSteps [("TARGET", "t")] ⟨fun _ => false, fun _ => true⟩
          [⟨"s1", "run \x7b\x7bX\x7d\x7d", false⟩] ⟨[], [], []⟩).invalidPaths ∧
    (validateSteps [("TARGET", "t")] ⟨fun _ => false, fun _ => true⟩
      ([⟨"s1", "run \x7b\x7bX\x7d\x7d", false⟩] ++ [⟨"s2", "/nope", false⟩])
      ⟨[], [], []⟩).missingCommands
      = (validateSteps [("TARGET", "t")] ⟨fun _ => false, fun _ => true⟩
          [⟨"s1", "run \x7b\x7bX\x7d\x7d", false⟩] ⟨[], [], []⟩).missingCommands :=
  validation_gated_by_earlier_steps [("TARGET", "t")] ⟨fun _ => false, fun _ => true⟩
    [⟨"s1", "run \x7b\x7bX\x7d\x7d", false⟩] [⟨"s2", "/nope", false⟩] (by decide)

/-- C5: in a fresh (non-resumed) run, a step at position `p` whose resolved
command still contains a `\x7b\x7b` or `\x7d\x7d` marker never has a child
process launched (its 1-based index `p + 1` is not in `launched`), the run
ends aborted, and no step at or beyond it is launched or recorded as
completed — independent of every step's `continue_on_error` flag. -/
theorem unresolved_placeholder_aborts (steps : List Step)
    (varMap : List (String × String)) (exec : Nat → RunEvent) (p : Nat)
    (hp : p < steps.length)
    (hb : containsBraces (substituteVariables varMap (steps.get ⟨p, hp⟩).command) = true) :
    (runStepsFrom varMap exec false 1 [] steps).aborted = true ∧
    (p + 1) ∉ (runStepsFrom varMap exec false 1 [] steps).launched ∧
    (∀ k ∈ (runStepsFrom varMap exec false 1 [] steps).launched, k ≤ p) ∧
    (∀ k ∈ (runStepsFrom varMap exec false 1 [] steps).completed, k ≤ p) := by
  have h1 := runStepsFrom_aborted_of_braces varMap exec steps 1 [] p hp hb
  have h2 := runStepsFrom_bounded_of_braces varMap exec steps 1 [] p hp hb
  refine ⟨h1, ?_, ?_, ?_⟩
  · intro hmem
    have := h2.1 _ hmem
    omega
  · intro k hk
    have := h2.1 k hk
    omega
  · intro k hk
    rcases h2.2 k hk with h | h
    · simp at h
    · omega

/-- C5 witness: a single step with an unresolvable placeholder and
`continue_on_error = true`: no process launched, run aborted. -/
theorem unresolved_placeholder_aborts_witness :
    (runStepsFrom [] (fun _ => RunEvent.exited 0) false 1 []
      [⟨"s1", "echo \x7b\x7bX\x7d\x7d", true⟩]).aborted = true ∧
    (0 + 1) ∉ (runStepsFrom [] (fun _ => RunEvent.exited 0) false 1 []
      [⟨"s1", "echo \x7b\x7bX\x7d\x7d", true⟩]).launched :=
  ⟨(unresolved_placeholder_aborts [⟨"s1", "echo \x7b\x7bX\x7d\x7d", true⟩] []
      (fun _ => RunEvent.exited 0) 0 (by decide) (by decide)).1,
   (unresolved_placeholder_aborts [⟨"s1", "echo \x7b\x7bX\x7d\x7d", true⟩] []
      (fun _ => RunEvent.exited 0) 0 (by decide) (by decide)).2.1⟩

/-- C6: a dry-run invocation that passes pre-flight validation launches no
child process, performs no state write, and displays every step's command
substituted with the post-prompting variable map. -/
theorem dry_run_no_side_effects (wf : Workflow) (templatePath target : String)
    (resume : Bool) (st : Option SavedState) (env : ValEnv)
    (promptValue : String → String) (confirmProceed : Bool) (exec : Nat → RunEvent)
    (h : (executeWorkflow wf templatePath target true resume st env promptValue
        confirmProceed exec).aborted = false) :
    (executeWorkflow wf templatePath target true resume st env promptValue
        confirmProceed exec).launched = [] ∧
    (executeWorkflow wf templatePath target true resume st env promptValue
        confirmProceed exec).saves = 0 ∧
    (executeWorkflow wf templatePath target true resume st env promptValue
        confirmProceed exec).displayed
      = wf.steps.map (fun s => substituteVariables
          (preflight wf (runSetup wf templatePath target resume st).vars env
            promptValue confirmProceed).2 s.command) := by
  simp only [executeWorkflow] at h ⊢
  by_cases hpf : (preflight wf (runSetup wf templatePath target resume st).vars env
      promptValue confirmProceed).1 = true
  · rw [if_pos hpf] at h
    simp at h
  · rw [if_neg hpf] at h ⊢
    exact ⟨rfl, rfl, rfl⟩

/-- C6 witness: a one-step workflow in dry-run mode; validation passes, the
command is displayed resolved, nothing is launched or saved. -/
theorem dry_run_no_side_effects_witness :
    (executeWorkflow ⟨"wf", [], [⟨"s1", "echo \x7b\x7bTARGET\x7d\x7d", false⟩]⟩
        "t.yaml" "example.com" true false none ⟨fun _ => true, fun _ => true⟩
        (fun _ => "") false (fun _ => RunEvent.exited 0)).launched = [] ∧
    (executeWorkflow ⟨"wf", [], [⟨"s1", "echo \x7b\x7bTARGET\x7d\x7d", false⟩]⟩
        "t.yaml" "example.com" true false none ⟨fun _ => true, fun _ => true⟩
        (fun _ => "") false (fun _ => RunEvent.exited 0)).saves = 0 ∧
    (executeWorkflow ⟨"wf", [], [⟨"s1", "echo \x7b\x7bTARGET\x7d\x7d", false⟩]⟩
        "t.yaml" "example.com" true false none ⟨fun _ => true, fun _ => true⟩
        (fun _ => "") false (fun _ => RunEvent.exited 0)).displayed
      = ["echo example.com"] :=
  ⟨(dry_run_no_side_effects ⟨"wf", [], [⟨"s1", "echo \x7b\x7bTARGET\x7d\x7d", false⟩]⟩
      "t.yaml" "example.com" false none ⟨fun _ => true, fun _ => true⟩
      (fun _ => "") false (fun _ => RunEvent.exited 0) (by decide)).1,
   (dry_run_no_side_effects ⟨"wf", [], [⟨"s1", "echo \x7b\x7bTARGET\x7d\x7d", false⟩]⟩
      "t.yaml" "example.com" false none ⟨fun _ => true, fun _ => true⟩
      (fun _ => "") false (fun _ => RunEvent.exited 0) (by decide)).2.1,
   ((dry_run_no_side_effects ⟨"wf", [], [⟨"s1", "echo \x7b\x7bTARGET\x7d\x7d", false⟩]⟩
      "t.yaml" "example.com" false none ⟨fun _ => true, fun _ => true⟩
      (fun _ => "") false (fun _ => RunEvent.exited 0) (by decide)).2.2).trans (by decide)⟩

/-- C7: an operator interrupt arriving while the step loop is running (all
handler locals bound) produces a checkpoint carrying the current workflow
name, target, completed step list and variable map, followed by
`sys.exit(0)`. -/
theorem interrupt_checkpoints_and_exits_zero (wf : Workflow)
    (vs : List (String × String)) (completed : List Nat)
    (templatePath target : String) :
    interruptHandler (envDuringExecution wf vs completed) templatePath target
      = some (⟨wf.name, templatePath, target, completed, vs⟩, 0) := rfl

/-- C8: the state key is a deterministic function of
`workflow_name + "_" + target`, so the distinct pairs `("a_b", "c")` and
`("a", "b_c")` share one state file name under every hash function — a save
for one overwrites the other's persisted state. -/
theorem state_key_not_injective (md5hex12 : String → String) :
    stateFileName md5hex12 "a_b" "c" = stateFileName md5hex12 "a" "b_c" ∧
    ("a_b", "c") ≠ (("a", "b_c") : String × String) := by
  constructor
  · have h : uniqueString "a_b" "c" = uniqueString "a" "b_c" := by decide
    unfold stateFileName generateStateId
    rw [h]
  · decide

/-- C9: whatever `TARGET` value a workflow document declares, the run setup
overwrites it with the CLI target before pre-flight validation, so the
variable map used from then on binds `TARGET` to the CLI argument. -/
theorem target_injection_overrides_document (wf : Workflow)
    (templatePath target : String) (resume : Bool) (st : Option SavedState) :
    lookupVar (runSetup wf templatePath target resume st).vars "TARGET" = some target :=
  lookupVar_setVar wf.vars "TARGET" target

/-- C10: an interrupt arriving before the workflow document is parsed finds
the handler's locals `workflow` and `variables` unbound; the handler's own
save raises and escapes it, so no checkpoint is written and the
exit-code-0 path is never reached. -/
theorem early_interrupt_handler_fails (templatePath target : String) :
    interruptHandler envBeforeParse templatePath target = none := rfl

end Oty
